import Mathlib

/-!
Verification development for the Lotto Pro Generator (`src/script.js`).

The script is a browser program; its core is pure apart from calls to
`Math.random()`.  The embedding below translates each core function into a
Lean definition, making every random draw an explicit parameter:

* a uniform ball draw (`Math.floor(Math.random() * TOTAL_BALLS) + 1`)
  becomes a stream `draw : Nat → Nat` indexed by the loop's `tries` counter;
* the roulette draw of the weighted generator passes the raw
  `Math.random()` output as a stream `rand : Nat → ℚ` (multiplied by the
  total weight exactly as in the source);
* the per-candidate scoring noise `Math.random() * 10` keeps the raw
  `Math.random()` output as the rational component of a draw outcome.

JavaScript `Set`s are embedded as duplicate-free `List Nat` values grown by
appending (insertion order), and `Array.from(set).sort((a, b) => a - b)` as
an ascending sort of that list.  JavaScript numbers that only ever hold
small integers are embedded as `Nat`; score arithmetic, which mixes the
real-valued noise with integer rewards, is embedded as `ℚ`.
-/

/-- Constant `TOTAL_BALLS = 45` from the source. -/
def TOTAL_BALLS : Nat := 45

/-- Constant `SELECT_COUNT = 6` from the source. -/
def SELECT_COUNT : Nat := 6

/-- Constant `MAX_HISTORY = 5` from the source. -/
def MAX_HISTORY : Nat := 5

/-- Embedding of `checkSum`'s `numbers.reduce((a, b) => a + b, 0)`. -/
def lottoSum (numbers : List Nat) : Nat := numbers.foldl (· + ·) 0

/-- Embedding of `checkSum`: the sum must lie in `[120, 170]`. -/
def checkSum (numbers : List Nat) : Bool :=
  decide (120 ≤ lottoSum numbers ∧ lottoSum numbers ≤ 170)

/-- Embedding of `Math.abs(numbers[i] - numbers[j])` on naturals. -/
def absDiff (a b : Nat) : Nat := ((a : ℤ) - (b : ℤ)).natAbs

/-- Embedding of the double loop of `checkAC` / `getACValue` collecting the
set `differences` of pairwise absolute differences. -/
def pairwiseDiffs : List Nat → Finset Nat
  | [] => ∅
  | x :: xs => (xs.map fun y => absDiff x y).toFinset ∪ pairwiseDiffs xs

/-- Embedding of `getACValue`: `differences.size - (numbers.length - 1)`
(also the value `acValue` computed inside `checkAC`). -/
def getACValue (numbers : List Nat) : ℤ :=
  ((pairwiseDiffs numbers).card : ℤ) - ((numbers.length : ℤ) - 1)

/-- Embedding of `checkAC`: pass iff the AC value is at least 7. -/
def checkAC (numbers : List Nat) : Bool := decide (7 ≤ getACValue numbers)

/-- Embedding of `checkMirror`: fewer than 6 distinct last decimal digits. -/
def checkMirror (numbers : List Nat) : Bool :=
  decide ((numbers.map fun n => n % 10).dedup.length < 6)

/-- Embedding of the `forEach` counter loop of `checkMatrix`: occupancy of
the three bands `1-15`, `16-30`, `31-45` (low, mid, high). -/
def matrixCounts (numbers : List Nat) : Nat × Nat × Nat :=
  numbers.foldl
    (fun acc n =>
      if n ≤ 15 then (acc.1 + 1, acc.2.1, acc.2.2)
      else if n ≤ 30 then (acc.1, acc.2.1 + 1, acc.2.2)
      else (acc.1, acc.2.1, acc.2.2 + 1))
    (0, 0, 0)

/-- Embedding of `checkMatrix`: no band may hold more than 4 numbers. -/
def checkMatrix (numbers : List Nat) : Bool :=
  decide ((matrixCounts numbers).1 ≤ 4 ∧ (matrixCounts numbers).2.1 ≤ 4 ∧
    (matrixCounts numbers).2.2 ≤ 4)

/-- Embedding of `saveToHistory` (the part acting on the history list):
`LottoHistory.unshift(record)` followed by one `pop()` when the length
exceeds `MAX_HISTORY`.  The record (numbers plus rendered date) is kept
abstract. -/
def saveToHistory {α : Type} (record : α) (history : List α) : List α :=
  let h := record :: history
  if MAX_HISTORY < h.length then h.dropLast else h

/-- Embedding of `loadHistory`: when storage holds a string, a successful
`JSON.parse` is adopted wholesale as the new history, a parse failure
resets the history to `[]`, and an absent entry leaves the current history
untouched.  `JSON.parse` is kept abstract as `parseStored`. -/
def loadHistory {α : Type} (saved : Option String)
    (parseStored : String → Option (List α)) (current : List α) : List α :=
  match saved with
  | none => current
  | some s =>
    match parseStored s with
    | some parsed => parsed
    | none => []

/-- Embedding of the shared `while (set.size < SELECT_COUNT && tries < 1000)`
loop body of `generateRandomSetWithFixed` and
`generateWeightedSetWithFixed`.  `draw tries` is the ball produced at
iteration `tries` (`none` when the weighted roulette loop falls through
without selecting a ball); a drawn ball is appended exactly when it is
neither in the working set nor excluded.  `fuel` is the number of loop
iterations still allowed by the `tries < 1000` bound. -/
def genLoop (excludedSet : List Nat) (draw : Nat → Option Nat) :
    Nat → Nat → List Nat → List Nat
  | 0, _, workingSet => workingSet
  | fuel + 1, tries, workingSet =>
    if workingSet.length < SELECT_COUNT then
      match draw tries with
      | some num =>
        if num ∉ workingSet ∧ num ∉ excludedSet then
          genLoop excludedSet draw fuel (tries + 1) (workingSet ++ [num])
        else genLoop excludedSet draw fuel (tries + 1) workingSet
      | none => genLoop excludedSet draw fuel (tries + 1) workingSet
    else workingSet

/-- Number of loop iterations (increments of `tries`) actually executed by
`genLoop` on the same arguments. -/
def genTries (excludedSet : List Nat) (draw : Nat → Option Nat) :
    Nat → Nat → List Nat → Nat
  | 0, _, _ => 0
  | fuel + 1, tries, workingSet =>
    if workingSet.length < SELECT_COUNT then
      match draw tries with
      | some num =>
        if num ∉ workingSet ∧ num ∉ excludedSet then
          1 + genTries excludedSet draw fuel (tries + 1) (workingSet ++ [num])
        else 1 + genTries excludedSet draw fuel (tries + 1) workingSet
      | none => 1 + genTries excludedSet draw fuel (tries + 1) workingSet
    else 0

/-- Number of discarded draws of `genLoop` on the same arguments: loop
iterations whose draw was not added to the working set. -/
def genDiscarded (excludedSet : List Nat) (draw : Nat → Option Nat) :
    Nat → Nat → List Nat → Nat
  | 0, _, _ => 0
  | fuel + 1, tries, workingSet =>
    if workingSet.length < SELECT_COUNT then
      match draw tries with
      | some num =>
        if num ∉ workingSet ∧ num ∉ excludedSet then
          genDiscarded excludedSet draw fuel (tries + 1) (workingSet ++ [num])
        else 1 + genDiscarded excludedSet draw fuel (tries + 1) workingSet
      | none => 1 + genDiscarded excludedSet draw fuel (tries + 1) workingSet
    else 0

/-- Embedding of `generateRandomSetWithFixed`: seed the working set with
`new Set(fixedSet)`, run the bounded fill loop on uniform draws
`draw : Nat → Nat`, return `null` when fewer than `SELECT_COUNT` members
were reached, else the ascending sort of the working set. -/
def generateRandomSetWithFixed (fixedSet excludedSet : List Nat)
    (draw : Nat → Nat) : Option (List Nat) :=
  let s := genLoop excludedSet (fun t => some (draw t)) 1000 0 fixedSet.dedup
  if s.length < SELECT_COUNT then none
  else some (List.insertionSort (· ≤ ·) s)

/-- Embedding of the roulette `for (let i = 1; i <= TOTAL_BALLS; i++)` loop
of the weighted generators: accumulate `runningSum += w i` and select the
first `i` with `random ≤ runningSum`; `none` when the loop exhausts its
`rem` remaining indices without selecting. -/
def rouletteGo (w : Nat → ℚ) (random : ℚ) : Nat → ℚ → Nat → Option Nat
  | _, _, 0 => none
  | i, runningSum, rem + 1 =>
    if random ≤ runningSum + w i then some i
    else rouletteGo w random (i + 1) (runningSum + w i) rem

/-- Single weighted draw: the roulette loop started at ball 1 with running
sum 0 over all `TOTAL_BALLS` balls. -/
def selectBall (w : Nat → ℚ) (random : ℚ) : Option Nat :=
  rouletteGo w random 1 0 TOTAL_BALLS

/-- Embedding of `AI_WEIGHTS.reduce((sum, w) => sum + w, 0)` over the
46-entry weight table (index 0 included, as in the source). -/
def totalWeight (w : Nat → ℚ) : ℚ := ∑ i ∈ Finset.range (TOTAL_BALLS + 1), w i

/-- Embedding of the `AI_WEIGHTS` table construction: index 0 maps to 0;
every other index gets the deterministic base curve (center bias, hot and
cold adjustments) plus the construction-time noise `Math.random() * 0.4 -
0.2`, floored at `0.1` by `Math.max`.  The noise is an explicit
parameter. -/
def AI_WEIGHTS (noise : Nat → ℚ) (i : Nat) : ℚ :=
  if i = 0 then 0
  else
    max (1 / 10)
      (1 + (if 10 ≤ i ∧ i ≤ 35 then 3 / 10 else 0)
        + (if i ∈ [1, 13, 17, 33, 40] then 1 / 2 else 0)
        - (if i ∈ [9, 22, 41] then 2 / 5 else 0)
        + noise i)

/-- Embedding of `generateWeightedSetWithFixed`: as the uniform generator,
but each iteration draws `Math.random() * totalWeight` (here
`rand t * totalWeight w` with `rand t` the raw `Math.random()` output) and
feeds it to the roulette selection. -/
def generateWeightedSetWithFixed (fixedSet excludedSet : List Nat)
    (w : Nat → ℚ) (rand : Nat → ℚ) : Option (List Nat) :=
  let s := genLoop excludedSet
    (fun t => selectBall w (rand t * totalWeight w)) 1000 0 fixedSet.dedup
  if s.length < SELECT_COUNT then none
  else some (List.insertionSort (· ≤ ·) s)

/-- Checkbox configuration read at the top of `runMonteCarloSimulation`.
`useAI` only chooses which generator produces the candidates; in the
embedding of the search loop the generator output is already part of each
draw outcome. -/
structure SimSettings where
  useSum : Bool
  useAC : Bool
  useMirror : Bool
  useMatrix : Bool
  useMonteCarlo : Bool
  useAI : Bool

/-- Embedding of the score accumulation of one simulation draw
(`let score = 0; score += Math.random() * 10;` followed by the four
filter-conditional additions).  `rand` is the raw `Math.random()` output
used for the noise term. -/
def computeScore (cfg : SimSettings) (rand : ℚ) (candidate : List Nat) : ℚ :=
  let score : ℚ := 0
  let score := score + rand * 10
  let score := score + (if cfg.useSum then (if checkSum candidate then 20 else -50) else 0)
  let score := score + (if cfg.useAC then (if checkAC candidate then 15 else -20) else 0)
  let score := score + (if cfg.useMirror then (if checkMirror candidate then 10 else 0) else 0)
  let score := score + (if cfg.useMatrix then (if checkMatrix candidate then 10 else -10) else 0)
  score

/-- Outcome of one iteration of the simulation loop before scoring: the
generator's result (`none` on generation failure) paired with the raw
`Math.random()` output drawn for the score noise. -/
abbrev DrawOutcome : Type := Option (List Nat) × ℚ

/-- Embedding of one iteration of the inner simulation loop: a failed
generation is skipped (`continue`), otherwise the candidate is scored and
replaces the incumbent `(bestSet, maxScore)` pair exactly when its score is
strictly greater (`if (score > maxScore)`). -/
def loopStep (cfg : SimSettings) (best : Option (List Nat) × ℚ)
    (d : DrawOutcome) : Option (List Nat) × ℚ :=
  match d.1 with
  | none => best
  | some candidate =>
    let score := computeScore cfg d.2 candidate
    if best.2 < score then (some candidate, score) else best

/-- Successful draws of a run together with their scores: the candidates
the loop actually scored, in order. -/
def scoredDraws (cfg : SimSettings) (ds : List DrawOutcome) :
    List (List Nat × ℚ) :=
  ds.filterMap fun d => d.1.map fun c => (c, computeScore cfg d.2 c)

/-- Embedding of the pre-loop validation of `runMonteCarloSimulation`:
reject when the two fixed numbers are equal, or when a fixed number occurs
in the exclusion set. -/
def fixedValidationFails (fixedNums excludedSet : List Nat) : Bool :=
  (match fixedNums with
    | [a, b] => a == b
    | _ => false)
  || fixedNums.any fun fn => excludedSet.contains fn

/-- Embedding of `SIMULATION_COUNT = useMonteCarlo ? 10000 : 100`. -/
def simulationCount (useMonteCarlo : Bool) : Nat :=
  if useMonteCarlo then 10000 else 100

/-- Embedding of `runMonteCarloSimulation` past input parsing: a failed
validation returns `{ numbers: null, score: -1 }` immediately; otherwise
the loop processes exactly `SIMULATION_COUNT` draw outcomes (the chunking
into batches of 500 only interleaves UI updates and does not change which
draws are processed), starting from the incumbent `(null, -1)`.
`draws j` is the outcome of iteration `j`. -/
def runMonteCarloSimulation (cfg : SimSettings)
    (fixedNums excludedSet : List Nat) (draws : Nat → DrawOutcome) :
    Option (List Nat) × ℚ :=
  if fixedValidationFails fixedNums excludedSet then (none, -1)
  else
    ((List.range (simulationCount cfg.useMonteCarlo)).map draws).foldl
      (loopStep cfg) (none, -1)

/-- Well-formedness of a sampler success for a given fixed and exclusion
set: exactly `SELECT_COUNT` values, all in `[1, TOTAL_BALLS]`, strictly
ascending (hence duplicate-free), containing every fixed number and no
excluded number. -/
def SamplerOutputOK (fixedSet excludedSet l : List Nat) : Prop :=
  l.length = SELECT_COUNT ∧
  (∀ x ∈ l, 1 ≤ x ∧ x ≤ TOTAL_BALLS) ∧
  l.Sorted (· < ·) ∧
  l.Nodup ∧
  (∀ x ∈ fixedSet, x ∈ l) ∧
  (∀ x ∈ l, x ∉ excludedSet)

/-- Contribution of one filter to the score, following the spec's wording:
an enabled filter adds its reward on pass and its penalty on failure; a
disabled filter contributes nothing. -/
def scoreContribution (enabled passed : Bool) (reward penalty : ℚ) : ℚ :=
  if enabled then (if passed then reward else penalty) else 0

/-- Score formula as the spec states it: the noise term plus the four
per-filter contributions. -/
def specScoreFormula (cfg : SimSettings) (noiseTerm : ℚ)
    (candidate : List Nat) : ℚ :=
  noiseTerm
    + scoreContribution cfg.useSum (checkSum candidate) 20 (-50)
    + scoreContribution cfg.useAC (checkAC candidate) 15 (-20)
    + scoreContribution cfg.useMirror (checkMirror candidate) 10 0
    + scoreContribution cfg.useMatrix (checkMatrix candidate) 10 (-10)

/-- Run configuration with every checkbox off. -/
def cfgAllOff : SimSettings := ⟨false, false, false, false, false, false⟩

/-- Run configuration with only the Sum filter enabled. -/
def cfgSumOnly : SimSettings := ⟨true, false, false, false, false, false⟩

theorem genLoop_of_full {excludedSet : List Nat} {draw : Nat → Option Nat}
    {fuel tries : Nat} {s : List Nat} (h : SELECT_COUNT ≤ s.length) :
    genLoop excludedSet draw fuel tries s = s := by
  cases fuel with
  | zero => rw [genLoop]
  | succ n => rw [genLoop, if_neg (Nat.not_lt.mpr h)]

theorem mem_genLoop_of_mem {excludedSet : List Nat} {draw : Nat → Option Nat}
    (fuel : Nat) : ∀ tries s, ∀ x ∈ s, x ∈ genLoop excludedSet draw fuel tries s := by
  induction fuel with
  | zero => intro tries s x hx; simpa [genLoop] using hx
  | succ n ih =>
    intro tries s x hx
    rw [genLoop]
    split
    · split
      · split
        · exact ih _ _ x (List.mem_append_left _ hx)
        · exact ih _ _ x hx
      · exact ih _ _ x hx
    · exact hx

theorem genLoop_mem_cases {excludedSet : List Nat} {draw : Nat → Option Nat}
    {P : Nat → Prop} (hP : ∀ t n, draw t = some n → P n) (fuel : Nat) :
    ∀ tries s, ∀ x ∈ genLoop excludedSet draw fuel tries s,
      x ∈ s ∨ (P x ∧ x ∉ excludedSet) := by
  induction fuel with
  | zero => intro tries s x hx; simp only [genLoop] at hx; exact Or.inl hx
  | succ n ih =>
    intro tries s x hx
    rw [genLoop] at hx
    split at hx
    · split at hx
      · rename_i num heq
        split at hx
        · rename_i hnum
          rcases ih _ _ x hx with hmem | hPx
          · rcases List.mem_append.mp hmem with hs | hone
            · exact Or.inl hs
            · refine Or.inr ?_
              have hxnum : x = num := by simpa using hone
              subst hxnum
              exact ⟨hP _ _ heq, hnum.2⟩
          · exact Or.inr hPx
        · exact ih _ _ x hx
      · exact ih _ _ x hx
    · exact Or.inl hx

theorem genLoop_nodup {excludedSet : List Nat} {draw : Nat → Option Nat}
    (fuel : Nat) : ∀ tries s, s.Nodup →
      (genLoop excludedSet draw fuel tries s).Nodup := by
  induction fuel with
  | zero => intro tries s hs; simpa [genLoop] using hs
  | succ n ih =>
    intro tries s hs
    rw [genLoop]
    split
    · split
      · split
        · rename_i num heq hnum
          refine ih _ _ (List.nodup_append.mpr ⟨hs, List.nodup_singleton _, ?_⟩)
          intro a ha hb
          rw [List.mem_singleton] at hb
          subst hb
          exact hnum.1 ha
        · exact ih _ _ hs
      · exact ih _ _ hs
    · exact hs

theorem genLoop_length_le {excludedSet : List Nat} {draw : Nat → Option Nat}
    (fuel : Nat) : ∀ tries s, s.length ≤ SELECT_COUNT →
      (genLoop excludedSet draw fuel tries s).length ≤ SELECT_COUNT := by
  induction fuel with
  | zero => intro tries s hs; simpa [genLoop] using hs
  | succ n ih =>
    intro tries s hs
    rw [genLoop]
    split
    · rename_i hlt
      split
      · split
        · refine ih _ _ ?_
          simp only [List.length_append, List.length_singleton]
          omega
        · exact ih _ _ hs
      · exact ih _ _ hs
    · exact hs

theorem genTries_eq_fuel {excludedSet : List Nat} {draw : Nat → Option Nat} :
    ∀ fuel tries s,
      (genLoop excludedSet draw fuel tries s).length < SELECT_COUNT →
      genTries excludedSet draw fuel tries s = fuel := by
  intro fuel
  induction fuel with
  | zero => intro tries s _; rw [genTries]
  | succ n ih =>
    intro tries s h
    by_cases h6 : s.length < SELECT_COUNT
    · rw [genLoop, if_pos h6] at h
      rw [genTries, if_pos h6]
      cases heq : draw tries with
      | none =>
        simp only [heq] at h ⊢
        rw [ih _ _ h]
        omega
      | some num =>
        simp only [heq] at h ⊢
        by_cases hnum : num ∉ s ∧ num ∉ excludedSet
        · rw [if_pos hnum] at h ⊢
          rw [ih _ _ h]
          omega
        · rw [if_neg hnum] at h ⊢
          rw [ih _ _ h]
          omega
    · rw [genLoop, if_neg h6] at h
      exact absurd h h6

theorem rouletteGo_some_bounds {w : Nat → ℚ} {random : ℚ} :
    ∀ rem i runningSum j,
      rouletteGo w random i runningSum rem = some j → i ≤ j ∧ j < i + rem := by
  intro rem
  induction rem with
  | zero => intro i rs j h; rw [rouletteGo] at h; exact Option.noConfusion h
  | succ n ih =>
    intro i rs j h
    rw [rouletteGo] at h
    split at h
    · injection h with h'
      subst h'
      omega
    · have := ih (i + 1) (rs + w i) j h
      omega

theorem selectBall_some_bounds {w : Nat → ℚ} {random : ℚ} {j : Nat}
    (h : selectBall w random = some j) : 1 ≤ j ∧ j ≤ TOTAL_BALLS := by
  have := rouletteGo_some_bounds TOTAL_BALLS 1 0 j h
  omega

theorem genPipeline_ok (fixedSet excludedSet : List Nat)
    (dOpt : Nat → Option Nat) (l : List Nat)
    (hlen : fixedSet.length ≤ 2)
    (hrange : ∀ x ∈ fixedSet, 1 ≤ x ∧ x ≤ TOTAL_BALLS)
    (hdisj : ∀ x ∈ fixedSet, x ∉ excludedSet)
    (hP : ∀ t n, dOpt t = some n → 1 ≤ n ∧ n ≤ TOTAL_BALLS)
    (h : (if (genLoop excludedSet dOpt 1000 0 fixedSet.dedup).length < SELECT_COUNT
          then (none : Option (List Nat))
          else some (List.insertionSort (· ≤ ·)
            (genLoop excludedSet dOpt 1000 0 fixedSet.dedup))) = some l) :
    SamplerOutputOK fixedSet excludedSet l := by
  set s := genLoop excludedSet dOpt 1000 0 fixedSet.dedup with hs
  split at h
  · exact Option.noConfusion h
  · rename_i hfull
    injection h with h'
    have hdnod : fixedSet.dedup.Nodup := List.nodup_dedup _
    have hdlen : fixedSet.dedup.length ≤ SELECT_COUNT := by
      have h1 : fixedSet.dedup.length ≤ fixedSet.length :=
        (List.dedup_sublist _).length_le
      have h2 : (2 : Nat) ≤ SELECT_COUNT := by decide
      omega
    have hslen_le : s.length ≤ SELECT_COUNT := by
      rw [hs]
      exact genLoop_length_le _ _ _ hdlen
    have hslen : s.length = SELECT_COUNT := by omega
    have hsnod : s.Nodup := by
      rw [hs]
      exact genLoop_nodup _ _ _ hdnod
    have hperm : (List.insertionSort (· ≤ ·) s).Perm s := List.perm_insertionSort _ _
    have hsortle : (List.insertionSort (· ≤ ·) s).Sorted (· ≤ ·) :=
      List.sorted_insertionSort _ _
    have hlnod : (List.insertionSort (· ≤ ·) s).Nodup := hperm.nodup_iff.mpr hsnod
    have hmem : ∀ x : Nat, x ∈ List.insertionSort (· ≤ ·) s ↔ x ∈ s := fun x =>
      List.mem_insertionSort _
    have hprov : ∀ x ∈ s, x ∈ fixedSet.dedup ∨
        ((1 ≤ x ∧ x ≤ TOTAL_BALLS) ∧ x ∉ excludedSet) := by
      rw [hs]
      exact genLoop_mem_cases hP _ _ _
    subst h'
    refine ⟨?_, ?_, ?_, hlnod, ?_, ?_⟩
    · rw [hperm.length_eq, hslen]
    · intro x hx
      rcases hprov x ((hmem x).mp hx) with hd | hP'
      · exact hrange x (List.mem_dedup.mp hd)
      · exact hP'.1
    · exact hsortle.lt_of_le hlnod
    · intro x hxf
      refine (hmem x).mpr ?_
      rw [hs]
      exact mem_genLoop_of_mem _ _ _ x (List.mem_dedup.mpr hxf)
    · intro x hx
      rcases hprov x ((hmem x).mp hx) with hd | hP'
      · exact hdisj x (List.mem_dedup.mp hd)
      · exact hP'.2

theorem generateCore_none_iff (fixedSet excludedSet : List Nat)
    (dOpt : Nat → Option Nat) :
    (if (genLoop excludedSet dOpt 1000 0 fixedSet.dedup).length < SELECT_COUNT
        then (none : Option (List Nat))
        else some (List.insertionSort (· ≤ ·)
          (genLoop excludedSet dOpt 1000 0 fixedSet.dedup))) = none ↔
      genTries excludedSet dOpt 1000 0 fixedSet.dedup = 1000 ∧
      (genLoop excludedSet dOpt 1000 0 fixedSet.dedup).length < SELECT_COUNT := by
  by_cases h6 : (genLoop excludedSet dOpt 1000 0 fixedSet.dedup).length < SELECT_COUNT
  · rw [if_pos h6]
    constructor
    · intro _
      exact ⟨genTries_eq_fuel 1000 0 _ h6, h6⟩
    · intro _
      rfl
  · rw [if_neg h6]
    constructor
    · intro hc
      exact Option.noConfusion hc
    · intro hc
      exact absurd hc.2 h6

/-- C2 (amended): the sampler's fill loop stops as soon as the working set
holds `SELECT_COUNT` members (consuming no further draws), and both
generators return Failure (`none`), never an exception, exactly when 1000
draws — counting accepted as well as discarded ones, not 1000 *discarded*
draws — have occurred without the working set reaching `SELECT_COUNT`. -/
theorem sampler_stop_and_failure_bound (fixedSet excludedSet : List Nat)
    (draw : Nat → Nat) (w : Nat → ℚ) (rand : Nat → ℚ)
    (dOpt : Nat → Option Nat) (fuel tries : Nat) (s : List Nat)
    (hfull : SELECT_COUNT ≤ s.length) :
    genLoop excludedSet dOpt fuel tries s = s ∧
    (generateRandomSetWithFixed fixedSet excludedSet draw = none ↔
      genTries excludedSet (fun t => some (draw t)) 1000 0 fixedSet.dedup = 1000 ∧
      (genLoop excludedSet (fun t => some (draw t)) 1000 0
        fixedSet.dedup).length < SELECT_COUNT) ∧
    (generateWeightedSetWithFixed fixedSet excludedSet w rand = none ↔
      genTries excludedSet (fun t => selectBall w (rand t * totalWeight w))
        1000 0 fixedSet.dedup = 1000 ∧
      (genLoop excludedSet (fun t => selectBall w (rand t * totalWeight w))
        1000 0 fixedSet.dedup).length < SELECT_COUNT) := by
  refine ⟨genLoop_of_full hfull, ?_, ?_⟩
  · simp only [generateRandomSetWithFixed]
    exact generateCore_none_iff _ _ _
  · simp only [generateWeightedSetWithFixed]
    exact generateCore_none_iff _ _ _

theorem sampler_stop_and_failure_bound_witness :
    genLoop [20] (fun _ => some 1) 3 0 [1, 2, 3, 4, 5, 6] = [1, 2, 3, 4, 5, 6] ∧
    (generateRandomSetWithFixed [7, 12] [20] (fun t => t % 45 + 1) = none ↔
      genTries [20] (fun t => some (t % 45 + 1)) 1000 0 [7, 12].dedup = 1000 ∧
      (genLoop [20] (fun t => some (t % 45 + 1)) 1000 0
        [7, 12].dedup).length < SELECT_COUNT) ∧
    (generateWeightedSetWithFixed [7, 12] [20] (AI_WEIGHTS fun _ => 0)
        (fun _ => 1 / 2) = none ↔
      genTries [20]
        (fun _ => selectBall (AI_WEIGHTS fun _ => 0)
          (1 / 2 * totalWeight (AI_WEIGHTS fun _ => 0))) 1000 0
        [7, 12].dedup = 1000 ∧
      (genLoop [20]
        (fun _ => selectBall (AI_WEIGHTS fun _ => 0)
          (1 / 2 * totalWeight (AI_WEIGHTS fun _ => 0))) 1000 0
        [7, 12].dedup).length < SELECT_COUNT) :=
  sampler_stop_and_failure_bound [7, 12] [20] (fun t => t % 45 + 1)
    (AI_WEIGHTS fun _ => 0) (fun _ => 1 / 2) (fun _ => some 1) 3 0
    [1, 2, 3, 4, 5, 6] (by decide)

set_option maxRecDepth 100000 in
/-- C2 counterexample: with fixed set and exclusion set empty and the draw
stream `1, 2, 3, 4, 5, 1, 1, 1, ...`, the uniform generator fails (returns
`none`) although only 995 draws were discarded — the first five draws were
accepted — refuting that failure occurs exactly after 1000 *discarded*
draws. -/
theorem sampler_failure_after_995_discards :
    generateRandomSetWithFixed [] [] (fun t => if t < 5 then t + 1 else 1) = none ∧
    genDiscarded [] (fun t => some (if t < 5 then t + 1 else 1)) 1000 0 [] = 995 ∧
    (995 : Nat) ≠ 1000 :=
  ⟨by decide, by decide, by decide⟩

/-- C3: every successful result of either generator, for a fixed set of at
most two distinct in-range numbers disjoint from the exclusion set (and,
for the uniform generator, in-range draws), is a strictly ascending list of
exactly `SELECT_COUNT` distinct values in `[1, TOTAL_BALLS]` containing
every fixed number and no excluded number. -/
theorem sampler_success_wellformed (fixedSet excludedSet : List Nat)
    (draw : Nat → Nat) (w : Nat → ℚ) (rand : Nat → ℚ) (l : List Nat)
    (hlen : fixedSet.length ≤ 2) (hnd : fixedSet.Nodup)
    (hrange : ∀ x ∈ fixedSet, 1 ≤ x ∧ x ≤ TOTAL_BALLS)
    (hdisj : ∀ x ∈ fixedSet, x ∉ excludedSet)
    (hdraw : ∀ t, 1 ≤ draw t ∧ draw t ≤ TOTAL_BALLS)
    (hgen : generateRandomSetWithFixed fixedSet excludedSet draw = some l ∨
      generateWeightedSetWithFixed fixedSet excludedSet w rand = some l) :
    SamplerOutputOK fixedSet excludedSet l := by
  rcases hgen with hg | hg
  · refine genPipeline_ok fixedSet excludedSet (fun t => some (draw t)) l
      hlen hrange hdisj ?_ ?_
    · intro t n hn
      injection hn with hn
      subst hn
      exact hdraw t
    · simp only [generateRandomSetWithFixed] at hg
      exact hg
  · refine genPipeline_ok fixedSet excludedSet
      (fun t => selectBall w (rand t * totalWeight w)) l hlen hrange hdisj ?_ ?_
    · intro t n hn
      exact selectBall_some_bounds hn
    · simp only [generateWeightedSetWithFixed] at hg
      exact hg

theorem sampler_success_wellformed_witness :
    SamplerOutputOK [7, 12] [20] [1, 2, 3, 4, 7, 12] :=
  sampler_success_wellformed [7, 12] [20] (fun t => t % 45 + 1)
    (AI_WEIGHTS fun _ => 0) (fun _ => 1 / 2) [1, 2, 3, 4, 7, 12]
    (by decide) (by decide) (by decide) (by decide)
    (by intro t; show 1 ≤ t % 45 + 1 ∧ t % 45 + 1 ≤ 45; omega)
    (Or.inl (by decide))

theorem foldl_add_shift (l : List Nat) : ∀ acc, l.foldl (· + ·) acc = acc + l.sum := by
  induction l with
  | nil => simp
  | cons x xs ih =>
    intro acc
    simp only [List.foldl_cons, ih, List.sum_cons]
    omega

theorem lottoSum_eq_sum (numbers : List Nat) : lottoSum numbers = numbers.sum := by
  simpa [lottoSum] using foldl_add_shift numbers 0

/-- C8: the Sum filter passes exactly when the sum of the values lies in
`[120, 170]` inclusive; sums 120 and 170 pass while 119 and 171 fail. -/
theorem checkSum_spec :
    (∀ numbers : List Nat, checkSum numbers = true ↔
      120 ≤ numbers.sum ∧ numbers.sum ≤ 170) ∧
    checkSum [10, 15, 20, 24, 25, 26] = true ∧
    checkSum [9, 15, 20, 24, 25, 26] = false ∧
    checkSum [8, 10, 20, 43, 44, 45] = true ∧
    checkSum [9, 10, 20, 43, 44, 45] = false := by
  refine ⟨?_, by decide, by decide, by decide, by decide⟩
  intro numbers
  rw [checkSum, lottoSum_eq_sum]
  simp

/-- C7: the AC filter counts distinct pairwise absolute differences, the AC
value of a 6-element combination is that count minus 5, passing requires
AC at least 7; for `[1, 2, 3, 4, 5, 6]` the distinct differences are
`{1, 2, 3, 4, 5}`, the AC value is 0 and the filter fails. -/
theorem checkAC_spec (numbers : List Nat) (h6 : numbers.length = 6) :
    (checkAC numbers = true ↔ 7 ≤ ((pairwiseDiffs numbers).card : ℤ) - 5) ∧
    getACValue numbers = ((pairwiseDiffs numbers).card : ℤ) - 5 ∧
    pairwiseDiffs [1, 2, 3, 4, 5, 6] = {1, 2, 3, 4, 5} ∧
    getACValue [1, 2, 3, 4, 5, 6] = 0 ∧
    checkAC [1, 2, 3, 4, 5, 6] = false := by
  have hAC : getACValue numbers = ((pairwiseDiffs numbers).card : ℤ) - 5 := by
    rw [getACValue, h6]
    norm_num
  refine ⟨?_, hAC, by decide, by decide, by decide⟩
  rw [checkAC, hAC]
  simp

theorem checkAC_spec_witness :
    (checkAC [2, 9, 17, 24, 33, 41] = true ↔
      7 ≤ ((pairwiseDiffs [2, 9, 17, 24, 33, 41]).card : ℤ) - 5) ∧
    getACValue [2, 9, 17, 24, 33, 41] =
      ((pairwiseDiffs [2, 9, 17, 24, 33, 41]).card : ℤ) - 5 ∧
    pairwiseDiffs [1, 2, 3, 4, 5, 6] = {1, 2, 3, 4, 5} ∧
    getACValue [1, 2, 3, 4, 5, 6] = 0 ∧
    checkAC [1, 2, 3, 4, 5, 6] = false :=
  checkAC_spec [2, 9, 17, 24, 33, 41] (by decide)

/-- C4: the score of a candidate is exactly the noise term
`Math.random() * 10` (a value in `[0, 10)`) plus, for each enabled filter,
its reward on pass or penalty on failure — Sum +20/−50, AC +15/−20,
Mirror +10/0, Matrix +10/−10 — with disabled filters contributing
nothing. -/
theorem computeScore_decomposition (cfg : SimSettings) (candidate : List Nat)
    (rand : ℚ) (h0 : 0 ≤ rand) (h1 : rand < 1) :
    computeScore cfg rand candidate = specScoreFormula cfg (rand * 10) candidate ∧
    0 ≤ rand * 10 ∧ rand * 10 < 10 := by
  refine ⟨?_, by linarith, by linarith⟩
  simp only [computeScore, specScoreFormula, scoreContribution]
  ring

theorem computeScore_decomposition_witness :
    computeScore ⟨true, true, true, true, false, false⟩ (1 / 2) [1, 2, 3, 4, 5, 6] =
      specScoreFormula ⟨true, true, true, true, false, false⟩ (1 / 2 * 10)
        [1, 2, 3, 4, 5, 6] ∧
    0 ≤ (1 / 2 : ℚ) * 10 ∧ (1 / 2 : ℚ) * 10 < 10 :=
  computeScore_decomposition ⟨true, true, true, true, false, false⟩
    [1, 2, 3, 4, 5, 6] (1 / 2) (by norm_num) (by norm_num)

theorem foldl_loopStep_spec (cfg : SimSettings) :
    ∀ (ds : List DrawOutcome) (b : Option (List Nat) × ℚ),
      b.2 ≤ (ds.foldl (loopStep cfg) b).2 ∧
      (ds.foldl (loopStep cfg) b = b ∨
        ∃ p ∈ scoredDraws cfg ds, ds.foldl (loopStep cfg) b = (some p.1, p.2)) ∧
      (∀ p ∈ scoredDraws cfg ds, p.2 ≤ (ds.foldl (loopStep cfg) b).2) ∧
      ((∀ p ∈ scoredDraws cfg ds, p.2 ≤ b.2) → ds.foldl (loopStep cfg) b = b) := by
  intro ds
  induction ds with
  | nil =>
    intro b
    refine ⟨le_refl _, Or.inl rfl, ?_, fun _ => rfl⟩
    intro p hp
    simp [scoredDraws] at hp
  | cons d tl ih =>
    intro b
    obtain ⟨od, r⟩ := d
    cases od with
    | none =>
      have hstep : loopStep cfg b (none, r) = b := rfl
      have hsd : scoredDraws cfg ((none, r) :: tl) = scoredDraws cfg tl := by
        simp [scoredDraws]
      simp only [List.foldl_cons, hstep, hsd]
      exact ih b
    | some c =>
      have hsd : scoredDraws cfg ((some c, r) :: tl) =
          (c, computeScore cfg r c) :: scoredDraws cfg tl := by
        simp [scoredDraws]
      by_cases hlt : b.2 < computeScore cfg r c
      · have hstep : loopStep cfg b (some c, r) =
            (some c, computeScore cfg r c) := by
          simp [loopStep, hlt]
        obtain ⟨ih1, ih2, ih3, ih4⟩ := ih (some c, computeScore cfg r c)
        simp only [List.foldl_cons, hstep, hsd]
        refine ⟨le_trans (le_of_lt hlt) ih1, ?_, ?_, ?_⟩
        · rcases ih2 with heq | ⟨p, hp, heq⟩
          · exact Or.inr ⟨(c, computeScore cfg r c), List.mem_cons_self _ _, heq⟩
          · exact Or.inr ⟨p, List.mem_cons_of_mem _ hp, heq⟩
        · intro p hp
          rcases List.mem_cons.mp hp with hph | hpt
          · subst hph
            exact ih1
          · exact ih3 p hpt
        · intro hall
          exact absurd hlt
            (not_lt.mpr (hall (c, computeScore cfg r c) (List.mem_cons_self _ _)))
      · have hstep : loopStep cfg b (some c, r) = b := by
          simp [loopStep, hlt]
        obtain ⟨ih1, ih2, ih3, ih4⟩ := ih b
        simp only [List.foldl_cons, hstep, hsd]
        refine ⟨ih1, ?_, ?_, ?_⟩
        · rcases ih2 with heq | ⟨p, hp, heq⟩
          · exact Or.inl heq
          · exact Or.inr ⟨p, List.mem_cons_of_mem _ hp, heq⟩
        · intro p hp
          rcases List.mem_cons.mp hp with hph | hpt
          · subst hph
            exact le_trans (not_lt.mp hlt) ih1
          · exact ih3 p hpt
        · intro hall
          exact ih4 fun p hp => hall p (List.mem_cons_of_mem _ hp)

theorem foldl_loopStep_id (cfg : SimSettings) :
    ∀ (ds : List DrawOutcome) (b : Option (List Nat) × ℚ),
      (∀ d ∈ ds, loopStep cfg b d = b) → ds.foldl (loopStep cfg) b = b := by
  intro ds
  induction ds with
  | nil => intro b _; rfl
  | cons d tl ih =>
    intro b hall
    rw [List.foldl_cons, hall d (List.mem_cons_self _ _)]
    exact ih b fun d' hd' => hall d' (List.mem_cons_of_mem _ hd')

/-- C1 (amended): past validation, a run returns the `NotFound` value
`(null, -1)` exactly when no successful draw scored strictly above the
initial incumbent score −1 (in particular when no draw succeeded at all);
whenever some successful draw scores above −1, the run returns the best
(combination, score) pair among the successful draws. -/
theorem search_loop_result_characterization (cfg : SimSettings)
    (fixedNums excludedSet : List Nat) (draws : Nat → DrawOutcome)
    (hok : fixedValidationFails fixedNums excludedSet = false) :
    (runMonteCarloSimulation cfg fixedNums excludedSet draws = (none, -1) ↔
      ∀ p ∈ scoredDraws cfg
        ((List.range (simulationCount cfg.useMonteCarlo)).map draws), p.2 ≤ -1) ∧
    ∀ q ∈ scoredDraws cfg
        ((List.range (simulationCount cfg.useMonteCarlo)).map draws),
      -1 < q.2 →
      ∃ c r, runMonteCarloSimulation cfg fixedNums excludedSet draws = (some c, r) ∧
        (c, r) ∈ scoredDraws cfg
          ((List.range (simulationCount cfg.useMonteCarlo)).map draws) ∧
        ∀ p ∈ scoredDraws cfg
          ((List.range (simulationCount cfg.useMonteCarlo)).map draws), p.2 ≤ r := by
  have hrun : runMonteCarloSimulation cfg fixedNums excludedSet draws =
      ((List.range (simulationCount cfg.useMonteCarlo)).map draws).foldl
        (loopStep cfg) (none, -1) := by
    simp [runMonteCarloSimulation, hok]
  obtain ⟨h1, h2, h3, h4⟩ := foldl_loopStep_spec cfg
    ((List.range (simulationCount cfg.useMonteCarlo)).map draws) (none, -1)
  constructor
  · constructor
    · intro h p hp
      have hle := h3 p hp
      rw [← hrun, h] at hle
      simpa using hle
    · intro hall
      rw [hrun]
      exact h4 hall
  · intro q hq hqpos
    rcases h2 with heq | ⟨p, hp, heq⟩
    · exfalso
      have hle := h3 q hq
      rw [heq] at hle
      simp at hle
      linarith
    · refine ⟨p.1, p.2, ?_, ?_, ?_⟩
      · rw [hrun, heq]
      · simpa [Prod.mk.eta] using hp
      · intro p' hp'
        have hle := h3 p' hp'
        rw [heq] at hle
        exact hle

theorem search_loop_result_characterization_witness :
    (runMonteCarloSimulation cfgAllOff [] []
        (fun _ => (some [1, 2, 3, 4, 5, 6], 1)) = (none, -1) ↔
      ∀ p ∈ scoredDraws cfgAllOff
          ((List.range (simulationCount cfgAllOff.useMonteCarlo)).map
            fun _ => (some [1, 2, 3, 4, 5, 6], 1)), p.2 ≤ -1) ∧
    ∀ q ∈ scoredDraws cfgAllOff
        ((List.range (simulationCount cfgAllOff.useMonteCarlo)).map
          fun _ => (some [1, 2, 3, 4, 5, 6], 1)),
      -1 < q.2 →
      ∃ c r, runMonteCarloSimulation cfgAllOff [] []
          (fun _ => (some [1, 2, 3, 4, 5, 6], 1)) = (some c, r) ∧
        (c, r) ∈ scoredDraws cfgAllOff
          ((List.range (simulationCount cfgAllOff.useMonteCarlo)).map
            fun _ => (some [1, 2, 3, 4, 5, 6], 1)) ∧
        ∀ p ∈ scoredDraws cfgAllOff
          ((List.range (simulationCount cfgAllOff.useMonteCarlo)).map
            fun _ => (some [1, 2, 3, 4, 5, 6], 1)), p.2 ≤ r :=
  search_loop_result_characterization cfgAllOff [] []
    (fun _ => (some [1, 2, 3, 4, 5, 6], 1)) (by decide)

/-- C1 counterexample: with only the Sum filter enabled and every draw
producing the candidate `[1, 2, 3, 4, 5, 6]` with noise 0, all 100 draws of
the run succeed (each scoring −50), yet the run returns `(null, -1)` — the
`NotFound` value — refuting that `NotFound` occurs exactly when zero draws
succeed, and that a run with a successful draw returns the best observed
pair. -/
theorem notfound_despite_successful_draws :
    runMonteCarloSimulation cfgSumOnly [] []
      (fun _ => (some [1, 2, 3, 4, 5, 6], 0)) = (none, -1) ∧
    ([1, 2, 3, 4, 5, 6], computeScore cfgSumOnly 0 [1, 2, 3, 4, 5, 6]) ∈
      scoredDraws cfgSumOnly
        ((List.range (simulationCount cfgSumOnly.useMonteCarlo)).map
          fun _ => (some [1, 2, 3, 4, 5, 6], 0)) ∧
    computeScore cfgSumOnly 0 [1, 2, 3, 4, 5, 6] = -50 := by
  have hcs : checkSum [1, 2, 3, 4, 5, 6] = false := by decide
  have hscore : computeScore cfgSumOnly 0 [1, 2, 3, 4, 5, 6] = -50 := by
    simp [computeScore, cfgSumOnly, hcs]
  have hstep : loopStep cfgSumOnly ((none : Option (List Nat)), (-1 : ℚ))
      (some [1, 2, 3, 4, 5, 6], 0) = (none, -1) := by
    simp only [loopStep, hscore]
    rw [if_neg (by norm_num)]
  refine ⟨?_, ?_, hscore⟩
  · have hval : fixedValidationFails [] [] = false := by decide
    rw [runMonteCarloSimulation, hval]
    simp only [Bool.false_eq_true, if_false]
    refine foldl_loopStep_id cfgSumOnly _ _ ?_
    intro d hd
    rcases List.mem_map.mp hd with ⟨j, hj, hdj⟩
    subst hdj
    exact hstep
  · simp only [scoredDraws]
    refine List.mem_filterMap.mpr ⟨(some [1, 2, 3, 4, 5, 6], 0), ?_, rfl⟩
    refine List.mem_map.mpr ⟨0, List.mem_range.mpr ?_, rfl⟩
    decide

/-- C5 (amended): a run whose fixed numbers are duplicated or meet the
exclusion set is rejected before any sampling — its result does not depend
on the draw stream at all — but the value returned for the rejection is
`(null, -1)`, the same value as `NotFound`; the specific reason is only
surfaced as a UI alert side effect, not in the returned value. -/
theorem config_rejection_before_sampling (cfg : SimSettings)
    (fixedNums excludedSet : List Nat) (draws draws2 : Nat → DrawOutcome)
    (h : fixedValidationFails fixedNums excludedSet = true) :
    runMonteCarloSimulation cfg fixedNums excludedSet draws = (none, -1) ∧
    runMonteCarloSimulation cfg fixedNums excludedSet draws =
      runMonteCarloSimulation cfg fixedNums excludedSet draws2 := by
  constructor <;> simp [runMonteCarloSimulation, h]

theorem config_rejection_before_sampling_witness :
    runMonteCarloSimulation cfgAllOff [7, 7] []
      (fun _ => (some [1, 2, 3, 4, 5, 6], 1)) = (none, -1) ∧
    runMonteCarloSimulation cfgAllOff [7, 7] []
      (fun _ => (some [1, 2, 3, 4, 5, 6], 1)) =
    runMonteCarloSimulation cfgAllOff [7, 7] [] (fun _ => (none, 0)) :=
  config_rejection_before_sampling cfgAllOff [7, 7] []
    (fun _ => (some [1, 2, 3, 4, 5, 6], 1)) (fun _ => (none, 0)) (by decide)

/-- C5 counterexample: the value returned for a run rejected because the
two fixed numbers are equal is `(null, -1)` — exactly the value returned by
a validated run in which every draw fails — so the caller cannot
distinguish the configuration rejection from `NotFound` by the result. -/
theorem config_rejection_result_equals_notfound :
    runMonteCarloSimulation cfgAllOff [7, 7] []
      (fun _ => (some [1, 2, 3, 4, 5, 6], 0)) = (none, -1) ∧
    runMonteCarloSimulation cfgAllOff [] [] (fun _ => (none, 0)) = (none, -1) := by
  constructor
  · have hval : fixedValidationFails [7, 7] [] = true := by decide
    simp [runMonteCarloSimulation, hval]
  · have hval : fixedValidationFails [] [] = false := by decide
    rw [runMonteCarloSimulation, hval]
    simp only [Bool.false_eq_true, if_false]
    refine foldl_loopStep_id cfgAllOff _ _ ?_
    intro d hd
    rcases List.mem_map.mp hd with ⟨j, hj, hdj⟩
    subst hdj
    rfl

/-- C6: the incumbent is replaced only by a strictly greater score — a
later candidate scoring no more than the current incumbent leaves the run's
state unchanged (first-seen tie-breaking) — and the incumbent score never
decreases as the run processes further draws. -/
theorem incumbent_replacement_policy (cfg : SimSettings)
    (ds more : List DrawOutcome) (candidate : List Nat) (rand : ℚ)
    (hle : computeScore cfg rand candidate ≤
      (ds.foldl (loopStep cfg) (none, -1)).2) :
    (ds ++ [(some candidate, rand)]).foldl (loopStep cfg) (none, -1) =
      ds.foldl (loopStep cfg) (none, -1) ∧
    (ds.foldl (loopStep cfg) (none, -1)).2 ≤
      ((ds ++ more).foldl (loopStep cfg) (none, -1)).2 := by
  constructor
  · rw [List.foldl_append, List.foldl_cons, List.foldl_nil]
    simp only [loopStep]
    rw [if_neg (not_lt.mpr hle)]
  · rw [List.foldl_append]
    exact (foldl_loopStep_spec cfg more _).1

theorem incumbent_replacement_policy_witness :
    ([((some [1, 2, 3, 4, 5, 6] : Option (List Nat)), (1 : ℚ))] ++
        [(some [7, 8, 9, 10, 11, 12], 0)]).foldl (loopStep cfgAllOff) (none, -1) =
      [((some [1, 2, 3, 4, 5, 6] : Option (List Nat)), (1 : ℚ))].foldl
        (loopStep cfgAllOff) (none, -1) ∧
    ([((some [1, 2, 3, 4, 5, 6] : Option (List Nat)), (1 : ℚ))].foldl
        (loopStep cfgAllOff) (none, -1)).2 ≤
      (([((some [1, 2, 3, 4, 5, 6] : Option (List Nat)), (1 : ℚ))] ++
        [((none : Option (List Nat)), (0 : ℚ))]).foldl (loopStep cfgAllOff)
        (none, -1)).2 :=
  incumbent_replacement_policy cfgAllOff
    [((some [1, 2, 3, 4, 5, 6] : Option (List Nat)), (1 : ℚ))]
    [((none : Option (List Nat)), (0 : ℚ))] [7, 8, 9, 10, 11, 12] 0
    (by
      have hsc : computeScore cfgAllOff 1 [1, 2, 3, 4, 5, 6] = 10 := by
        simp [computeScore, cfgAllOff]
      have hfold : [((some [1, 2, 3, 4, 5, 6] : Option (List Nat)), (1 : ℚ))].foldl
          (loopStep cfgAllOff) (none, -1) = (some [1, 2, 3, 4, 5, 6], 10) := by
        rw [List.foldl_cons, List.foldl_nil]
        simp only [loopStep, hsc]
        rw [if_pos (by norm_num)]
      have hc : computeScore cfgAllOff 0 [7, 8, 9, 10, 11, 12] = 0 := by
        simp [computeScore, cfgAllOff]
      rw [hfold, hc]
      norm_num)

theorem saveToHistory_length {α : Type} (record : α) (hist : List α) :
    (saveToHistory record hist).length =
      if hist.length < 5 then hist.length + 1 else hist.length := by
  simp only [saveToHistory]
  by_cases h5 : MAX_HISTORY < (record :: hist).length
  · rw [if_pos h5, List.length_dropLast]
    simp only [List.length_cons]
    simp [MAX_HISTORY] at h5
    rw [if_neg (by omega)]
    omega
  · rw [if_neg h5]
    simp only [List.length_cons]
    simp [MAX_HISTORY] at h5
    rw [if_pos (by omega)]

/-- C9: appending to a history of at most 5 records places the new record
first and keeps only the first 5 entries of the extended list (evicting the
oldest when the cap would be exceeded); inserting 6 records into an empty
history leaves exactly the 5 most recent, most-recent-first. -/
theorem saveToHistory_spec (α : Type) (r r1 r2 r3 r4 r5 r6 : α)
    (history : List α) (hlen : history.length ≤ 5) :
    saveToHistory r history = (r :: history).take 5 ∧
    List.foldl (fun acc x => saveToHistory x acc) ([] : List α)
      [r1, r2, r3, r4, r5, r6] = [r6, r5, r4, r3, r2] := by
  constructor
  · simp only [saveToHistory]
    by_cases h5 : MAX_HISTORY < (r :: history).length
    · rw [if_pos h5, List.dropLast_eq_take]
      simp only [List.length_cons]
      simp [MAX_HISTORY] at h5
      congr 1
      omega
    · rw [if_neg h5, List.take_of_length_le]
      simp only [List.length_cons]
      simp [MAX_HISTORY] at h5
      omega
  · rfl

theorem saveToHistory_spec_witness :
    saveToHistory 0 [10, 20, 30, 40, 50] =
      ((0 : Nat) :: [10, 20, 30, 40, 50]).take 5 ∧
    List.foldl (fun acc x => saveToHistory x acc) ([] : List Nat)
      [1, 2, 3, 4, 5, 6] = [6, 5, 4, 3, 2] :=
  saveToHistory_spec Nat 0 1 2 3 4 5 6 [10, 20, 30, 40, 50] (by decide)

/-- C10: loading adopts any successfully parsed stored list as the history
without validating its length (only a parse failure resets it to empty),
and appending evicts at most one record — the length grows by one below the
cap and stays the same at or above it — so a loaded history longer than 5
entries remains over the cap after an append. -/
theorem loadHistory_unvalidated_and_bounded_eviction (α : Type) (s : String)
    (parseOk parseBad : String → Option (List α)) (current hist stored : List α)
    (record : α) (hp1 : parseOk s = some stored) (hp2 : parseBad s = none)
    (hlong : 5 < stored.length) :
    loadHistory (some s) parseOk current = stored ∧
    loadHistory (some s) parseBad current = [] ∧
    (saveToHistory record hist).length =
      (if hist.length < 5 then hist.length + 1 else hist.length) ∧
    5 < (saveToHistory record (loadHistory (some s) parseOk current)).length := by
  have h1 : loadHistory (some s) parseOk current = stored := by
    simp [loadHistory, hp1]
  refine ⟨h1, by simp [loadHistory, hp2], saveToHistory_length record hist, ?_⟩
  rw [h1, saveToHistory_length]
  rw [if_neg (by omega)]
  omega

theorem loadHistory_unvalidated_witness :
    loadHistory (some "x") (fun _ => some [1, 2, 3, 4, 5, 6, 7]) ([] : List Nat) =
      [1, 2, 3, 4, 5, 6, 7] ∧
    loadHistory (some "x") (fun _ => none) ([] : List Nat) = [] ∧
    (saveToHistory 9 [1, 2]).length =
      (if [1, 2].length < 5 then [1, 2].length + 1 else [1, 2].length) ∧
    5 < (saveToHistory 9
      (loadHistory (some "x") (fun _ => some [1, 2, 3, 4, 5, 6, 7])
        ([] : List Nat))).length :=
  loadHistory_unvalidated_and_bounded_eviction Nat "x"
    (fun _ => some [1, 2, 3, 4, 5, 6, 7]) (fun _ => none) [] [1, 2]
    [1, 2, 3, 4, 5, 6, 7] 9 rfl rfl (by decide)
